import Mathlib

/-! Verification of `station_example_main.c` (WiFi station + CSI capture).

A shallow embedding of the three functions of the program that carry its logic:

* `wifi_csi_cb`     – the CSI callback, which prints one `CSI_DATA` line per record;
* `event_handler`   – the connection state machine driven by WiFi / IP events;
* `wifi_enable_csi` – the three-step activation of CSI reporting.

Platform calls (`printf`, `esp_wifi_connect`, `xEventGroupSetBits`, `esp_wifi_set_csi*`,
`ESP_LOGx`) are modelled by the text or the call log they produce. The retry counter
`s_retry_num` is a 32-bit `int`: its increment is reduced into the range of `int`.
-/

namespace StationCsi

/-! ## Text output: `printf` -/

/-- Conversion `%d` of `printf` applied to a C `int`: an optional minus sign followed by the
decimal digits of the magnitude, no padding and no leading zeros. -/
def printf_d (v : Int) : String :=
  if v < 0 then "-" ++ String.mk (Nat.toDigits 10 v.natAbs)
  else String.mk (Nat.toDigits 10 v.natAbs)

/-- Value of `(int)buf[i]` for `const int8_t *buf`: the stored byte read as a signed
two's-complement 8-bit integer. -/
def int8_t (byte : Nat) : Int :=
  if byte % 256 < 128 then ((byte % 256 : Nat) : Int) else ((byte % 256 : Nat) : Int) - 256

/-! ## The CSI record and the callback `wifi_csi_cb` -/

/-- The part of `wifi_pkt_rx_ctrl_t` the program reads. -/
structure wifi_pkt_rx_ctrl_t where
  /-- Field `rssi` of the received packet, as the `int` that `printf` receives. -/
  rssi : Int
deriving DecidableEq

/-- The part of `wifi_csi_info_t` the program reads. The pointer `buf` is `none` when it is
`NULL`, otherwise the bytes stored from the address it points to. -/
structure wifi_csi_info_t where
  rx_ctrl : wifi_pkt_rx_ctrl_t
  buf : Option (List Nat)
  len : Int
deriving DecidableEq

/-- The loop `for (int i = 0; i < info->len; i++) { printf("%d", (int)buf[i]);
if (i != info->len - 1) printf(" "); }` entered at index `i` with `out` already written.
One unit of `fuel` is spent per iteration. The result is `none` when the fuel runs out before
the loop condition fails, or when `buf[i]` lies outside the stored bytes. -/
def csi_loop (buf : List Nat) (len : Int) : Nat → Int → String → Option String
  | 0, i, out => if i < len then none else some out
  | fuel + 1, i, out =>
    if i < len then
      match buf[i.toNat]? with
      | none => none
      | some byte =>
        let out1 := out ++ printf_d (int8_t byte)
        let out2 := if i != len - 1 then out1 ++ " " else out1
        csi_loop buf len fuel (i + 1) out2
    else some out

/-- Function `wifi_csi_cb(ctx, info)`: the text it writes to `stdout`. The argument is `none`
for a `NULL` record pointer. The result is `none` only if the callback reads outside the
buffer; the loop is given `info->len` units of fuel, one per iteration it can make. -/
def wifi_csi_cb (info : Option wifi_csi_info_t) : Option String :=
  match info with
  | none => some ""
  | some rec =>
    match rec.buf with
    | none => some ""
    | some buf =>
      if rec.len ≤ 0 then some ""
      else
        let out := "CSI_DATA," ++ printf_d rec.rx_ctrl.rssi ++ ",[ "
        match csi_loop buf rec.len rec.len.toNat 0 out with
        | none => none
        | some out1 => some (out1 ++ " ]\n")

/-- The samples of a record: the first `len` bytes of the buffer, each read as `int8_t`. -/
def csi_samples (buf : List Nat) (len : Int) : List Int :=
  (buf.take len.toNat).map int8_t

/-- The output line described by the header comment of the file,
`CSI_DATA,<rssi>,[ <b0> <b1> ... <bN> ]`, terminated by a newline. -/
def csi_line (rssi : Int) (samples : List Int) : String :=
  "CSI_DATA," ++ printf_d rssi ++ ",[ " ++ " ".intercalate (samples.map printf_d) ++ " ]\n"

/-- Text that follows the first token of a separated list: each further token preceded by
the separator. -/
def sep_tail (sep : String) : List String → String
  | [] => ""
  | a :: rest => sep ++ a ++ sep_tail sep rest

/-! ## Decoding an output line (reader side of the line protocol) -/

/-- Reads a run of decimal digits, most significant first, onto the accumulator `acc`;
`none` when a character is not a decimal digit. -/
def parse_digits : Nat → List Char → Option Nat
  | acc, [] => some acc
  | acc, c :: cs => if c.isDigit then parse_digits (10 * acc + (c.toNat - 48)) cs else none

/-- Reads a signed decimal integer: an optional `-` followed by at least one digit. -/
def parse_int : List Char → Option Int
  | [] => none
  | c :: cs =>
    if c = '-' then
      if cs = [] then none else Option.map (fun m => - Int.ofNat m) (parse_digits 0 cs)
    else Option.map Int.ofNat (parse_digits 0 (c :: cs))

/-- Removes the leading text `pre` from `text`; `none` when `text` does not start with it. -/
def strip_head : List Char → List Char → Option (List Char)
  | [], text => some text
  | _ :: _, [] => none
  | p :: pre, c :: text => if p = c then strip_head pre text else none

/-- Removes the trailing text `suf` from `text`; `none` when `text` does not end with it. -/
def strip_tail (suf text : List Char) : Option (List Char) :=
  (strip_head suf.reverse text.reverse).map List.reverse

/-- Decodes one output line into the signal strength and the samples: the field between
`CSI_DATA,` and the next comma is read as an integer, and the text between `[ ` and the
closing ` ]` with its newline is split on single spaces, each token read as an integer. -/
def decode_line (line : List Char) : Option (Int × List Int) :=
  match strip_head "CSI_DATA,".data line with
  | none => none
  | some rest =>
    match strip_head ",[ ".data (rest.dropWhile (fun c => c != ',')) with
    | none => none
    | some rest1 =>
      match strip_tail " ]\n".data rest1 with
      | none => none
      | some body =>
        match parse_int (rest.takeWhile (fun c => c != ',')),
              (body.splitOn ' ').mapM parse_int with
        | some r, some bs => some (r, bs)
        | _, _ => none

/-! ## The connection state machine: `event_handler` -/

/-- Bit 0 of an event group (`BIT0`). -/
def BIT0 : Nat := 1

/-- Bit 1 of an event group (`BIT1`). -/
def BIT1 : Nat := 2

/-- Macro `WIFI_CONNECTED_BIT`. -/
def WIFI_CONNECTED_BIT : Nat := BIT0

/-- Macro `WIFI_FAIL_BIT`. -/
def WIFI_FAIL_BIT : Nat := BIT1

/-- Event bases the handler compares against; any other base is `OTHER`. -/
inductive esp_event_base_t where
  | WIFI_EVENT
  | IP_EVENT
  | OTHER (tag : Nat)
deriving DecidableEq

/-- Value of `WIFI_EVENT_STA_START` in the enumeration `wifi_event_t` of ESP-IDF. -/
def WIFI_EVENT_STA_START : Int := 2

/-- Value of `WIFI_EVENT_STA_DISCONNECTED` in the enumeration `wifi_event_t` of ESP-IDF. -/
def WIFI_EVENT_STA_DISCONNECTED : Int := 5

/-- Value of `IP_EVENT_STA_GOT_IP` in the enumeration `ip_event_t` of ESP-IDF. -/
def IP_EVENT_STA_GOT_IP : Int := 0

/-- Calls the handler makes into the platform. -/
inductive Call where
  | esp_wifi_connect
  | xEventGroupSetBits (bits : Nat)
deriving DecidableEq

/-- The file-scope variables the handler reads and writes: the retry counter `s_retry_num` and
the bits of the event group `s_wifi_event_group`. -/
structure Globals where
  s_retry_num : Int
  s_wifi_event_group : Nat
deriving DecidableEq

/-- Largest value of the C type `int` of the target (32 bits). -/
def INT_MAX : Int := 2147483647

/-- Smallest value of the C type `int` of the target (32 bits). -/
def INT_MIN : Int := -2147483648

/-- The value an `int` variable holds after an operation whose exact result is `x`: `x` reduced
modulo `2^32` into the range from `INT_MIN` to `INT_MAX` (two's complement; an overflowing
`s_retry_num++` at `INT_MAX` yields `INT_MIN` on the target). -/
def int_wrap (x : Int) : Int := (x + 2147483648) % 4294967296 - 2147483648

/-- State at the start of `wifi_init_sta`: `s_retry_num = 0` and a fresh event group. -/
def init_globals : Globals := ⟨0, 0⟩

/-- Function `event_handler(arg, event_base, event_id, event_data)`, with the configuration
constant `EXAMPLE_ESP_MAXIMUM_RETRY` as a parameter: the new values of the globals and the
platform calls made, in order. The comparison `s_retry_num < EXAMPLE_ESP_MAXIMUM_RETRY` is
exact, whatever the size of the constant; `s_retry_num++` is an increment of an `int`.
`xEventGroupSetBits` ors the given bits into the group. -/
def event_handler (EXAMPLE_ESP_MAXIMUM_RETRY : Int) (g : Globals)
    (event_base : esp_event_base_t) (event_id : Int) : Globals × List Call :=
  if event_base = esp_event_base_t.WIFI_EVENT ∧ event_id = WIFI_EVENT_STA_START then
    (g, [Call.esp_wifi_connect])
  else if event_base = esp_event_base_t.WIFI_EVENT ∧ event_id = WIFI_EVENT_STA_DISCONNECTED then
    if g.s_retry_num < EXAMPLE_ESP_MAXIMUM_RETRY then
      ({ g with s_retry_num := int_wrap (g.s_retry_num + 1) }, [Call.esp_wifi_connect])
    else
      ({ g with s_wifi_event_group := g.s_wifi_event_group ||| WIFI_FAIL_BIT },
        [Call.xEventGroupSetBits WIFI_FAIL_BIT])
  else if event_base = esp_event_base_t.IP_EVENT ∧ event_id = IP_EVENT_STA_GOT_IP then
    ({ s_retry_num := 0, s_wifi_event_group := g.s_wifi_event_group ||| WIFI_CONNECTED_BIT },
      [Call.xEventGroupSetBits WIFI_CONNECTED_BIT])
  else (g, [])

/-- A notification delivered to the handler. -/
structure Event where
  event_base : esp_event_base_t
  event_id : Int
deriving DecidableEq

/-- The link-start notification. -/
def link_start : Event := ⟨esp_event_base_t.WIFI_EVENT, WIFI_EVENT_STA_START⟩

/-- The link-down notification. -/
def link_down : Event := ⟨esp_event_base_t.WIFI_EVENT, WIFI_EVENT_STA_DISCONNECTED⟩

/-- The address-acquired notification. -/
def address_acquired : Event := ⟨esp_event_base_t.IP_EVENT, IP_EVENT_STA_GOT_IP⟩

/-- Test `bits & WIFI_CONNECTED_BIT` of `wifi_init_sta`: Outcome = connected. -/
def outcome_connected (g : Globals) : Bool := g.s_wifi_event_group &&& WIFI_CONNECTED_BIT != 0

/-- Test `bits & WIFI_FAIL_BIT`: Outcome = failed. -/
def outcome_failed (g : Globals) : Bool := g.s_wifi_event_group &&& WIFI_FAIL_BIT != 0

/-- The handler applied to a sequence of notifications in order: each notification paired
with the calls made while handling it. -/
def handle_all (max_retry : Int) : Globals → List Event → List (Event × List Call)
  | _, [] => []
  | g, e :: evs =>
    (e, (event_handler max_retry g e.event_base e.event_id).2)
      :: handle_all max_retry (event_handler max_retry g e.event_base e.event_id).1 evs

/-- The globals after a sequence of notifications has been handled. -/
def run (max_retry : Int) : Globals → List Event → Globals
  | g, [] => g
  | g, e :: evs => run max_retry (event_handler max_retry g e.event_base e.event_id).1 evs

/-- The calls made in response to the link-down notifications of a sequence, one entry per
link-down, in order. -/
def link_down_responses (max_retry : Int) (g : Globals) (evs : List Event) : List (List Call) :=
  ((handle_all max_retry g evs).filter (fun p => p.1 = link_down)).map Prod.snd

/-- Number of connect requests among the given responses. -/
def connect_requests (responses : List (List Call)) : Nat :=
  (responses.map (fun calls => calls.count Call.esp_wifi_connect)).sum

/-- Number of notifications of a sequence whose handling changes the bits of the event group,
that is, produces an Outcome that was not there before. -/
def outcome_changes (max_retry : Int) : Globals → List Event → Nat
  | _, [] => 0
  | g, e :: evs =>
    (if (event_handler max_retry g e.event_base e.event_id).1.s_wifi_event_group
        = g.s_wifi_event_group then 0 else 1)
      + outcome_changes max_retry (event_handler max_retry g e.event_base e.event_id).1 evs

/-- Number of calls `xEventGroupSetBits(s_wifi_event_group, bits)` made while a sequence of
notifications was handled. -/
def signal_count (bits : Nat) (handled : List (Event × List Call)) : Nat :=
  (handled.map (fun p => p.2.count (Call.xEventGroupSetBits bits))).sum

/-! ## Activation of CSI reporting: `wifi_enable_csi` -/

/-- Error code `ESP_OK`. -/
def ESP_OK : Int := 0

/-- The fields of `wifi_csi_config_t` that the program sets. -/
structure wifi_csi_config_t where
  lltf_en : Bool
  htltf_en : Bool
  stbc_htltf2_en : Bool
  ltf_merge_en : Bool
  channel_filter_en : Bool
  manu_scale : Bool
deriving DecidableEq

/-- The local `csi_config` of `wifi_enable_csi`. -/
def csi_config : wifi_csi_config_t :=
  { lltf_en := true, htltf_en := true, stbc_htltf2_en := true, ltf_merge_en := true,
    channel_filter_en := false, manu_scale := false }

/-- Calls into the radio driver made by `wifi_enable_csi`. -/
inductive DriverCall where
  | esp_wifi_set_csi_rx_cb
  | esp_wifi_set_csi_config (config : wifi_csi_config_t)
  | esp_wifi_set_csi (enable : Bool)
deriving DecidableEq

/-- A line handed to the logger: `ESP_LOGE` or `ESP_LOGI`, with the formatted message. -/
inductive LogLine where
  | ESP_LOGE (tag message : String)
  | ESP_LOGI (tag message : String)
deriving DecidableEq

/-- The log tag `TAG`. -/
def TAG : String := "wifi_csi_sta"

/-- What the three driver calls return, should they be made. -/
structure DriverResults where
  set_csi_rx_cb : Int
  set_csi_config : Int
  set_csi : Int
deriving DecidableEq

/-- Function `wifi_enable_csi()`: the driver calls made, in order, and the lines logged. The
results of the driver calls and `esp_err_to_name` are parameters. -/
def wifi_enable_csi (esp_err_to_name : Int → String) (driver : DriverResults) :
    List DriverCall × List LogLine :=
  if driver.set_csi_rx_cb ≠ ESP_OK then
    ([DriverCall.esp_wifi_set_csi_rx_cb],
      [LogLine.ESP_LOGE TAG ("esp_wifi_set_csi_rx_cb failed: " ++ esp_err_to_name driver.set_csi_rx_cb)])
  else if driver.set_csi_config ≠ ESP_OK then
    ([DriverCall.esp_wifi_set_csi_rx_cb, DriverCall.esp_wifi_set_csi_config csi_config],
      [LogLine.ESP_LOGE TAG ("esp_wifi_set_csi_config failed: " ++ esp_err_to_name driver.set_csi_config),
       LogLine.ESP_LOGE TAG
         "MENUCONFIG'te WiFi CSI enable ettin mi? (Component config -> Wi-Fi -> CSI)"])
  else if driver.set_csi ≠ ESP_OK then
    ([DriverCall.esp_wifi_set_csi_rx_cb, DriverCall.esp_wifi_set_csi_config csi_config,
      DriverCall.esp_wifi_set_csi true],
      [LogLine.ESP_LOGE TAG ("esp_wifi_set_csi(true) failed: " ++ esp_err_to_name driver.set_csi)])
  else
    ([DriverCall.esp_wifi_set_csi_rx_cb, DriverCall.esp_wifi_set_csi_config csi_config,
      DriverCall.esp_wifi_set_csi true],
      [LogLine.ESP_LOGI TAG "CSI enabled."])

/-- The three steps of the activation. -/
inductive Step where
  | registration
  | configuration
  | enable
deriving DecidableEq

/-- The first step whose driver call does not return `ESP_OK`, if any. -/
def failing_step (driver : DriverResults) : Option Step :=
  if driver.set_csi_rx_cb ≠ ESP_OK then some Step.registration
  else if driver.set_csi_config ≠ ESP_OK then some Step.configuration
  else if driver.set_csi ≠ ESP_OK then some Step.enable
  else none

/-! ## Theorems: the CSI callback -/

theorem intercalate_go_eq (sep : String) (l : List String) (acc : String) :
    String.intercalate.go acc sep l = acc ++ sep_tail sep l := by
  induction l generalizing acc with
  | nil => simp [String.intercalate.go, sep_tail]
  | cons a rest ih =>
    simp only [String.intercalate.go, sep_tail, ih, String.append_assoc]

theorem intercalate_cons (sep a : String) (rest : List String) :
    sep.intercalate (a :: rest) = a ++ sep_tail sep rest := by
  simp [String.intercalate, intercalate_go_eq]

/-- The loop, entered at index `k ≤ n` with at least `n - k` units of fuel and a buffer of at
least `n` bytes, terminates and appends the remaining samples separated by single spaces. -/
theorem csi_loop_eq (buf : List Nat) (n : Nat) (hn : n ≤ buf.length) :
    ∀ (fuel k : Nat) (out : String), k ≤ n → n - k ≤ fuel →
      csi_loop buf (n : Int) fuel (k : Int) out
        = some (out ++ " ".intercalate (((buf.take n).drop k).map (fun b => printf_d (int8_t b)))) := by
  intro fuel
  induction fuel with
  | zero =>
    intro k out hk hf
    have hkn : k = n := by omega
    subst hkn
    have hnil : (buf.take k).drop k = [] := by simp
    simp [csi_loop, hnil, String.intercalate]
  | succ fuel ih =>
    intro k out hk hf
    by_cases hlt : k < n
    · have hkb : k < buf.length := by omega
      have hcond : ((k : Int) < (n : Int)) := by exact_mod_cast hlt
      have hdrop : (buf.take n).drop k = buf[k] :: (buf.take n).drop (k + 1) := by
        rw [List.drop_eq_getElem_cons (by simp; omega)]
        simp
      have hstep := ih (k + 1) (if (k : Int) != (n : Int) - 1
          then out ++ printf_d (int8_t buf[k]) ++ " " else out ++ printf_d (int8_t buf[k]))
          (by omega) (by omega)
      simp only [csi_loop, hcond, if_true, Int.toNat_ofNat, List.getElem?_eq_getElem hkb]
      rw [show ((k : Int) + 1) = ((k + 1 : Nat) : Int) by push_cast; rfl, hstep, hdrop]
      by_cases hlast : k + 1 = n
      · have h1 : ((k : Int) != (n : Int) - 1) = false := by
          simp; omega
        have h2 : (buf.take n).drop (k + 1) = [] := by
          simp; omega
        simp [h1, h2, String.intercalate, String.intercalate.go]
      · have h1 : ((k : Int) != (n : Int) - 1) = true := by
          simp; omega
        have h3 : k + 1 < (buf.take n).length := by simp; omega
        rw [List.drop_eq_getElem_cons h3]
        simp only [h1, if_true, List.map_cons, intercalate_cons, sep_tail, String.append_assoc]
    · have hkn : k = n := by omega
      subst hkn
      have hnil : (buf.take k).drop k = [] := by simp
      simp [csi_loop, hnil, String.intercalate]

/-! ### Decimal digits -/

theorem digitChar_isDigit (d : Nat) (hd : d < 10) : (Nat.digitChar d).isDigit = true := by
  interval_cases d <;> decide

theorem digitChar_value (d : Nat) (hd : d < 10) : (Nat.digitChar d).toNat - 48 = d := by
  interval_cases d <;> decide

theorem toDigitsCore_isDigit (fuel : Nat) :
    ∀ (n : Nat) (ds : List Char), (∀ c ∈ ds, c.isDigit = true) →
      ∀ c ∈ Nat.toDigitsCore 10 fuel n ds, c.isDigit = true := by
  induction fuel with
  | zero => intro n ds hds c hc; exact hds c (by simpa [Nat.toDigitsCore] using hc)
  | succ fuel ih =>
    intro n ds hds c hc
    have hcons : ∀ c ∈ Nat.digitChar (n % 10) :: ds, c.isDigit = true := by
      intro c hc
      rcases List.mem_cons.mp hc with h | h
      · rw [h]; exact digitChar_isDigit _ (Nat.mod_lt _ (by decide))
      · exact hds c h
    simp only [Nat.toDigitsCore] at hc
    split at hc
    · exact hcons c hc
    · exact ih _ _ hcons c hc

theorem toDigits_isDigit (n : Nat) : ∀ c ∈ Nat.toDigits 10 n, c.isDigit = true :=
  toDigitsCore_isDigit (n + 1) n [] (by simp)

theorem toDigitsCore_ne_nil (fuel n : Nat) (ds : List Char) (h : 0 < fuel) :
    Nat.toDigitsCore 10 fuel n ds ≠ [] := by
  induction fuel generalizing n ds with
  | zero => omega
  | succ fuel ih =>
    simp only [Nat.toDigitsCore]
    split
    · simp
    · cases fuel with
      | zero => simp [Nat.toDigitsCore]
      | succ f => exact ih _ _ (by omega)

theorem parse_digits_toDigitsCore (fuel : Nat) :
    ∀ (n : Nat) (ds : List Char), n < fuel →
      parse_digits 0 (Nat.toDigitsCore 10 fuel n ds) = parse_digits n ds := by
  induction fuel with
  | zero => intro n ds h; omega
  | succ fuel ih =>
    intro n ds h
    have hd : n % 10 < 10 := Nat.mod_lt _ (by decide)
    simp only [Nat.toDigitsCore]
    split
    · rename_i h0
      have hn : n % 10 = n := by omega
      have hd1 : n < 10 := by omega
      rw [hn]
      simp [parse_digits, digitChar_isDigit _ hd1, digitChar_value _ hd1]
    · rename_i h0
      rw [ih (n / 10) _ (by omega)]
      simp only [parse_digits, digitChar_isDigit _ hd, digitChar_value _ hd, if_true]
      congr 1
      omega

theorem parse_digits_toDigits (n : Nat) : parse_digits 0 (Nat.toDigits 10 n) = some n := by
  rw [Nat.toDigits, parse_digits_toDigitsCore (n + 1) n [] (by omega)]
  rfl

/-- Reading back what `%d` prints gives the number printed. -/
theorem parse_int_printf_d (v : Int) : parse_int (printf_d v).data = some v := by
  have hne : Nat.toDigits 10 v.natAbs ≠ [] := toDigitsCore_ne_nil _ _ _ (by omega)
  unfold printf_d
  split
  · rename_i hneg
    have : ("-" ++ String.mk (Nat.toDigits 10 v.natAbs)).data
        = '-' :: Nat.toDigits 10 v.natAbs := by
      simp [String.data_append]
    rw [this]
    simp only [parse_int, if_true, hne, if_false, parse_digits_toDigits, Option.map_some']
    simp only [Int.ofNat_eq_coe, Option.some.injEq]
    omega
  · rename_i hpos
    obtain ⟨c, cs, hcs⟩ := List.exists_cons_of_ne_nil hne
    have hc : c ≠ '-' := by
      intro h
      have := toDigits_isDigit v.natAbs c (by rw [hcs]; simp)
      rw [h] at this
      exact absurd this (by decide)
    show parse_int (Nat.toDigits 10 v.natAbs) = some v
    rw [hcs]
    simp only [parse_int, hc, if_false]
    rw [← hcs, parse_digits_toDigits]
    simp only [Option.map_some', Int.ofNat_eq_coe, Option.some.injEq]
    omega

/-- What `%d` prints consists of decimal digits and `-` only. -/
theorem printf_d_chars (v : Int) : ∀ c ∈ (printf_d v).data, c.isDigit = true ∨ c = '-' := by
  intro c hc
  unfold printf_d at hc
  split at hc
  · simp only [String.data_append] at hc
    rcases List.mem_append.mp hc with h | h
    · right; simpa using h
    · left; exact toDigits_isDigit _ c h
  · left; exact toDigits_isDigit _ c hc

theorem printf_d_no_space (v : Int) : ' ' ∉ (printf_d v).data := by
  intro h
  rcases printf_d_chars v _ h with h | h
  · exact absurd h (by decide)
  · exact absurd h (by decide)

theorem printf_d_no_comma (v : Int) : ',' ∉ (printf_d v).data := by
  intro h
  rcases printf_d_chars v _ h with h | h
  · exact absurd h (by decide)
  · exact absurd h (by decide)

/-- The function `%d` is injective: different numbers print differently. -/
theorem printf_d_injective (v w : Int) (h : printf_d v = printf_d w) : v = w := by
  have hv := parse_int_printf_d v
  rw [h, parse_int_printf_d w] at hv
  exact (Option.some.inj hv).symm

theorem int8_t_range (byte : Nat) : -128 ≤ int8_t byte ∧ int8_t byte ≤ 127 := by
  unfold int8_t
  split <;> omega

/-! ### Pieces of the decoder -/

theorem strip_head_append (pre rest : List Char) : strip_head pre (pre ++ rest) = some rest := by
  induction pre with
  | nil => cases rest <;> rfl
  | cons p pre ih => simp [strip_head, ih]

theorem strip_tail_append (suf body : List Char) : strip_tail suf (body ++ suf) = some body := by
  simp [strip_tail, List.reverse_append, strip_head_append]

theorem takeWhile_field (field rest : List Char) (h : ',' ∉ field) :
    (field ++ ',' :: rest).takeWhile (fun c => c != ',') = field := by
  induction field with
  | nil => simp
  | cons c cs ih =>
    have hc : c ≠ ',' := fun e => h (by simp [e])
    have hcs : ',' ∉ cs := fun e => h (by simp [e])
    have hb : (c != ',') = true := by simp [hc]
    simp [List.takeWhile, hb, ih hcs]

theorem dropWhile_field (field rest : List Char) (h : ',' ∉ field) :
    (field ++ ',' :: rest).dropWhile (fun c => c != ',') = ',' :: rest := by
  induction field with
  | nil => simp
  | cons c cs ih =>
    have hc : c ≠ ',' := fun e => h (by simp [e])
    have hcs : ',' ∉ cs := fun e => h (by simp [e])
    have hb : (c != ',') = true := by simp [hc]
    simp [List.dropWhile, hb, ih hcs]

theorem mapM_parse_int (vs : List Int) :
    (vs.map (fun v => (printf_d v).data)).mapM parse_int = some vs := by
  induction vs with
  | nil => rfl
  | cons v vs ih =>
    rw [List.map_cons, List.mapM_cons, ih, parse_int_printf_d]
    rfl

theorem sep_tail_data (toks : List String) :
    (sep_tail " " toks).data = (toks.map (fun t => ' ' :: t.data)).flatten := by
  induction toks with
  | nil => rfl
  | cons t toks ih => simp [sep_tail, String.data_append, ih]

theorem intercalate_data (toks : List String) :
    (" ".intercalate toks).data = [' '].intercalate (toks.map String.data) := by
  cases toks with
  | nil => rfl
  | cons t toks =>
    rw [intercalate_cons, String.data_append, sep_tail_data]
    induction toks generalizing t with
    | nil => simp [List.intercalate]
    | cons u toks ih =>
      have := ih u
      simp only [List.intercalate, List.map_cons, List.intersperse_cons_cons, List.flatten_cons,
        List.singleton_append, List.cons_append] at this ⊢
      rw [← this]
      simp

/-! ### The callback on valid and invalid records -/

theorem wifi_csi_cb_eq (rec : wifi_csi_info_t) (buf : List Nat)
    (hbuf : rec.buf = some buf) (hlen : 1 ≤ rec.len) (hsize : rec.len ≤ buf.length) :
    wifi_csi_cb (some rec) = some (csi_line rec.rx_ctrl.rssi (csi_samples buf rec.len)) := by
  obtain ⟨n, hn⟩ : ∃ n : Nat, rec.len = (n : Int) := ⟨rec.len.toNat, by omega⟩
  have hnb : n ≤ buf.length := by omega
  have hpos : ¬ rec.len ≤ 0 := by omega
  have hloop := csi_loop_eq buf n hnb n 0
    ("CSI_DATA," ++ printf_d rec.rx_ctrl.rssi ++ ",[ ") (by omega) (by omega)
  simp only [wifi_csi_cb, hbuf, hpos, if_false]
  rw [hn, Int.toNat_ofNat]
  rw [show ((0 : Int)) = ((0 : Nat) : Int) from rfl, hloop]
  simp [csi_line, csi_samples, hn, List.map_map, Function.comp_def]

/-- C1. On a valid record (record and buffer present, `len = n ≥ 1`, the buffer holding the
`n` samples) `wifi_csi_cb` returns and the text it writes is exactly
`CSI_DATA,` ++ dec(rssi) ++ `,[ ` ++ dec(b0) ++ ` ` ++ ... ++ ` ` ++ dec(b(n-1)) ++ ` ]` and one
newline, where `b0 .. b(n-1)` are the `n` samples read as signed 8-bit integers. -/
theorem wifi_csi_cb_writes_exact_line (rec : wifi_csi_info_t) (buf : List Nat)
    (hbuf : rec.buf = some buf) (hlen : 1 ≤ rec.len) (hsize : rec.len ≤ buf.length) :
    wifi_csi_cb (some rec)
        = some ("CSI_DATA," ++ printf_d rec.rx_ctrl.rssi ++ ",[ "
            ++ " ".intercalate ((csi_samples buf rec.len).map printf_d) ++ " ]\n")
      ∧ ((csi_samples buf rec.len).length : Int) = rec.len := by
  refine ⟨wifi_csi_cb_eq rec buf hbuf hlen hsize, ?_⟩
  simp only [csi_samples, List.length_map, List.length_take]
  omega

/-- Witness of C1: `rssi = -54` and samples `[4, -3, 0, 127, -128]` (bytes 4, 253, 0, 127, 128)
give exactly the line `CSI_DATA,-54,[ 4 -3 0 127 -128 ]` with its newline. -/
theorem wifi_csi_cb_writes_exact_line_witness :
    wifi_csi_cb (some ⟨⟨-54⟩, some [4, 253, 0, 127, 128], 5⟩)
      = some "CSI_DATA,-54,[ 4 -3 0 127 -128 ]\n" :=
  (wifi_csi_cb_writes_exact_line ⟨⟨-54⟩, some [4, 253, 0, 127, 128], 5⟩ [4, 253, 0, 127, 128]
    rfl (by decide) (by decide)).1.trans (by decide)

/-- C2. When the record pointer is `NULL`, or its buffer pointer is `NULL`, or its length is
`0` (or below), `wifi_csi_cb` returns normally and writes nothing. -/
theorem wifi_csi_cb_invalid_writes_nothing (info : Option wifi_csi_info_t)
    (h : info = none ∨ ∃ rec, info = some rec ∧ (rec.buf = none ∨ rec.len ≤ 0)) :
    wifi_csi_cb info = some "" := by
  rcases h with h | ⟨rec, h, hb | hl⟩
  · subst h; rfl
  · subst h; simp [wifi_csi_cb, hb]
  · subst h
    cases hbuf : rec.buf with
    | none => simp [wifi_csi_cb, hbuf]
    | some buf => simp [wifi_csi_cb, hbuf, hl]

/-- Witness of C2: a record with a buffer but length `0` writes nothing. -/
theorem wifi_csi_cb_invalid_writes_nothing_witness :
    wifi_csi_cb (some ⟨⟨-54⟩, some [4, 253], 0⟩) = some "" :=
  wifi_csi_cb_invalid_writes_nothing (some ⟨⟨-54⟩, some [4, 253], 0⟩)
    (Or.inr ⟨⟨⟨-54⟩, some [4, 253], 0⟩, rfl, Or.inr (by decide)⟩)

/-! ### Decoding the line -/

theorem csi_line_data (r : Int) (vs : List Int) :
    (csi_line r vs).data = "CSI_DATA,".data ++ ((printf_d r).data ++ ',' :: (",[ ".data.tail
        ++ ([' '].intercalate (vs.map (fun v => (printf_d v).data)) ++ " ]\n".data))) := by
  simp [csi_line, String.data_append, intercalate_data, List.map_map, Function.comp_def]

theorem splitOn_samples (vs : List Int) (hvs : vs ≠ []) :
    ([' '].intercalate (vs.map (fun v => (printf_d v).data))).splitOn ' '
      = vs.map (fun v => (printf_d v).data) := by
  apply List.splitOn_intercalate
  · intro l hl
    obtain ⟨v, _, rfl⟩ := List.mem_map.mp hl
    exact printf_d_no_space v
  · simpa using hvs

theorem decode_csi_line (r : Int) (vs : List Int) (hvs : vs ≠ []) :
    decode_line (csi_line r vs).data = some (r, vs) := by
  rw [csi_line_data]
  simp only [decode_line, strip_head_append, takeWhile_field _ _ (printf_d_no_comma r),
    dropWhile_field _ _ (printf_d_no_comma r)]
  rw [show ',' :: (",[ ".data.tail ++ ([' '].intercalate (vs.map (fun v => (printf_d v).data))
      ++ " ]\n".data)) = ",[ ".data ++ ([' '].intercalate (vs.map (fun v => (printf_d v).data))
      ++ " ]\n".data) from rfl]
  simp only [strip_head_append, strip_tail_append, splitOn_samples vs hvs, mapM_parse_int,
    parse_int_printf_d]

theorem csi_samples_ne_nil (buf : List Nat) (len : Int) (hlen : 1 ≤ len)
    (hsize : len ≤ buf.length) : csi_samples buf len ≠ [] := by
  intro h
  have := congrArg List.length h
  simp only [csi_samples, List.length_map, List.length_take, List.length_nil] at this
  omega

/-- C10. The line written for a valid record decodes back to the record: the text between
`[ ` and ` ]` splits on single spaces into exactly `len` tokens, token `i` is the decimal
rendering of sample `i`, which lies in `[-128, 127]`, and parses back to it; the field between
`CSI_DATA,` and `,[` is free of commas and parses to the signal strength; the decoder recovers
`(rssi, samples)`; hence any valid record that writes the same line has the same signal
strength and the same samples. -/
theorem wifi_csi_cb_line_decodes (rec : wifi_csi_info_t) (buf : List Nat)
    (hbuf : rec.buf = some buf) (hlen : 1 ≤ rec.len) (hsize : rec.len ≤ buf.length) :
    ∃ (line : String) (field body : List Char),
      wifi_csi_cb (some rec) = some line
      ∧ line.data = "CSI_DATA,".data ++ field ++ ",[ ".data ++ body ++ " ]\n".data
      ∧ ',' ∉ field
      ∧ parse_int field = some rec.rx_ctrl.rssi
      ∧ ((body.splitOn ' ').length : Int) = rec.len
      ∧ body.splitOn ' ' = (csi_samples buf rec.len).map (fun v => (printf_d v).data)
      ∧ (body.splitOn ' ').map parse_int = (csi_samples buf rec.len).map some
      ∧ (∀ v ∈ csi_samples buf rec.len, -128 ≤ v ∧ v ≤ 127)
      ∧ decode_line line.data = some (rec.rx_ctrl.rssi, csi_samples buf rec.len)
      ∧ ∀ (rec1 : wifi_csi_info_t) (buf1 : List Nat), rec1.buf = some buf1 → 1 ≤ rec1.len →
          rec1.len ≤ buf1.length → wifi_csi_cb (some rec1) = some line →
          rec1.rx_ctrl.rssi = rec.rx_ctrl.rssi ∧ csi_samples buf1 rec1.len = csi_samples buf rec.len := by
  have hne := csi_samples_ne_nil buf rec.len hlen hsize
  have hsplit := splitOn_samples (csi_samples buf rec.len) hne
  refine ⟨csi_line rec.rx_ctrl.rssi (csi_samples buf rec.len), (printf_d rec.rx_ctrl.rssi).data,
    [' '].intercalate ((csi_samples buf rec.len).map (fun v => (printf_d v).data)),
    wifi_csi_cb_eq rec buf hbuf hlen hsize, ?_, printf_d_no_comma _, parse_int_printf_d _,
    ?_, hsplit, ?_, ?_, decode_csi_line _ _ hne, ?_⟩
  · rw [csi_line_data]
    simp
  · rw [hsplit]
    simp only [csi_samples, List.length_map, List.length_take]
    omega
  · rw [hsplit, List.map_map]
    apply List.map_congr_left
    intro v _
    exact parse_int_printf_d v
  · intro v hv
    obtain ⟨b, _, rfl⟩ := List.mem_map.mp hv
    exact int8_t_range b
  · intro rec1 buf1 hbuf1 hlen1 hsize1 hsame
    have h1 := wifi_csi_cb_eq rec1 buf1 hbuf1 hlen1 hsize1
    rw [hsame] at h1
    have hd := decode_csi_line rec1.rx_ctrl.rssi (csi_samples buf1 rec1.len)
      (csi_samples_ne_nil buf1 rec1.len hlen1 hsize1)
    rw [← Option.some.inj h1, decode_csi_line _ _ hne] at hd
    have := Option.some.inj hd
    exact ⟨(congrArg Prod.fst this).symm, (congrArg Prod.snd this).symm⟩

/-! ## Theorems: the connection state machine -/

/-! ### Event-group bits -/

theorem or_and_mask (b m : Nat) : (b ||| m) &&& m = m := by
  apply Nat.eq_of_testBit_eq
  intro i
  simp only [Nat.testBit_and, Nat.testBit_or]
  cases b.testBit i <;> cases m.testBit i <;> rfl

theorem or_connected_and_fail (b : Nat) :
    (b ||| WIFI_CONNECTED_BIT) &&& WIFI_FAIL_BIT = b &&& WIFI_FAIL_BIT := by
  rw [Nat.and_distrib_right]
  have : WIFI_CONNECTED_BIT &&& WIFI_FAIL_BIT = 0 := by decide
  rw [this, Nat.or_zero]

theorem or_absorb (b m : Nat) : b &&& (b ||| m) = b := by
  apply Nat.eq_of_testBit_eq
  intro i
  simp only [Nat.testBit_and, Nat.testBit_or]
  cases b.testBit i <;> cases m.testBit i <;> rfl

theorem or_two_pow_of_and_ne_zero (b j : Nat) (h : b &&& 2 ^ j ≠ 0) : b ||| 2 ^ j = b := by
  obtain ⟨i, hi⟩ := Nat.ne_zero_implies_bit_true h
  rw [Nat.testBit_and, Nat.testBit_two_pow] at hi
  have hji : j = i := by
    by_contra hne
    simp [hne] at hi
  subst hji
  have hb : b.testBit j = true := by simpa using hi
  apply Nat.eq_of_testBit_eq
  intro i
  rw [Nat.testBit_or, Nat.testBit_two_pow]
  by_cases hij : j = i
  · subst hij; simp [hb]
  · simp [hij]

theorem or_fail_of_failed (b : Nat) (h : b &&& WIFI_FAIL_BIT ≠ 0) : b ||| WIFI_FAIL_BIT = b :=
  or_two_pow_of_and_ne_zero b 1 h

theorem or_connected_of_connected (b : Nat) (h : b &&& WIFI_CONNECTED_BIT ≠ 0) :
    b ||| WIFI_CONNECTED_BIT = b :=
  or_two_pow_of_and_ne_zero b 0 h

theorem or_fail_eq_iff (b : Nat) : b ||| WIFI_FAIL_BIT = b ↔ b &&& WIFI_FAIL_BIT ≠ 0 := by
  constructor
  · intro h hz
    have h1 := or_and_mask b WIFI_FAIL_BIT
    rw [h, hz] at h1
    exact absurd h1 (by decide)
  · exact or_fail_of_failed b

/-! ### Single steps of the handler -/

theorem int_wrap_eq (x : Int) (h1 : INT_MIN ≤ x) (h2 : x ≤ INT_MAX) : int_wrap x = x := by
  simp only [INT_MIN, INT_MAX] at h1 h2
  unfold int_wrap
  omega

theorem int_wrap_range (x : Int) : INT_MIN ≤ int_wrap x ∧ int_wrap x ≤ INT_MAX := by
  simp only [INT_MIN, INT_MAX]
  unfold int_wrap
  omega

theorem int_wrap_add (x : Int) (k : Nat) :
    int_wrap (int_wrap (x + 1) + (k : Int)) = int_wrap (x + ((k + 1 : Nat) : Int)) := by
  unfold int_wrap
  omega

theorem event_handler_link_down_wrap (m : Int) (g : Globals) (h : g.s_retry_num < m) :
    event_handler m g link_down.event_base link_down.event_id
      = ({ g with s_retry_num := int_wrap (g.s_retry_num + 1) }, [Call.esp_wifi_connect]) := by
  simp [event_handler, link_down, WIFI_EVENT_STA_START, WIFI_EVENT_STA_DISCONNECTED, h]

/-- Below a limit that is an `int`, the increment does not overflow. -/
theorem event_handler_link_down_lt (m : Int) (hm : m ≤ INT_MAX) (g : Globals)
    (hlo : INT_MIN ≤ g.s_retry_num) (h : g.s_retry_num < m) :
    event_handler m g link_down.event_base link_down.event_id
      = ({ g with s_retry_num := g.s_retry_num + 1 }, [Call.esp_wifi_connect]) := by
  rw [event_handler_link_down_wrap m g h, int_wrap_eq]
  · simp only [INT_MIN] at hlo ⊢; omega
  · simp only [INT_MAX] at hm ⊢; omega

theorem event_handler_link_down_ge (m : Int) (g : Globals) (h : m ≤ g.s_retry_num) :
    event_handler m g link_down.event_base link_down.event_id
      = ({ g with s_wifi_event_group := g.s_wifi_event_group ||| WIFI_FAIL_BIT },
          [Call.xEventGroupSetBits WIFI_FAIL_BIT]) := by
  have h1 : ¬ g.s_retry_num < m := by omega
  simp [event_handler, link_down, WIFI_EVENT_STA_START, WIFI_EVENT_STA_DISCONNECTED, h1]

theorem event_handler_address_acquired (m : Int) (g : Globals) :
    event_handler m g address_acquired.event_base address_acquired.event_id
      = ({ s_retry_num := 0, s_wifi_event_group := g.s_wifi_event_group ||| WIFI_CONNECTED_BIT },
          [Call.xEventGroupSetBits WIFI_CONNECTED_BIT]) := by
  simp [event_handler, address_acquired, IP_EVENT_STA_GOT_IP]

theorem event_handler_link_start (m : Int) (g : Globals) :
    event_handler m g link_start.event_base link_start.event_id = (g, [Call.esp_wifi_connect]) := by
  simp [event_handler, link_start]

theorem event_handler_other (m : Int) (g : Globals) (e : Event)
    (h1 : e ≠ link_start) (h2 : e ≠ link_down) (h3 : e ≠ address_acquired) :
    event_handler m g e.event_base e.event_id = (g, []) := by
  obtain ⟨b, i⟩ := e
  have c1 : ¬ (b = esp_event_base_t.WIFI_EVENT ∧ i = WIFI_EVENT_STA_START) := by
    rintro ⟨rfl, rfl⟩; exact h1 rfl
  have c2 : ¬ (b = esp_event_base_t.WIFI_EVENT ∧ i = WIFI_EVENT_STA_DISCONNECTED) := by
    rintro ⟨rfl, rfl⟩; exact h2 rfl
  have c3 : ¬ (b = esp_event_base_t.IP_EVENT ∧ i = IP_EVENT_STA_GOT_IP) := by
    rintro ⟨rfl, rfl⟩; exact h3 rfl
  simp only [event_handler, c1, c2, c3, if_false]

/-- A notification that is neither link-down nor address-acquired leaves the globals as
they are. -/
theorem event_handler_globals_same (m : Int) (g : Globals) (e : Event)
    (h2 : e ≠ link_down) (h3 : e ≠ address_acquired) :
    (event_handler m g e.event_base e.event_id).1 = g := by
  by_cases h1 : e = link_start
  · subst h1; rw [event_handler_link_start]
  · rw [event_handler_other m g e h1 h2 h3]

/-! ### Sequences of notifications -/

theorem link_down_responses_cons (m : Int) (g : Globals) (e : Event) (evs : List Event) :
    link_down_responses m g (e :: evs)
      = if e = link_down then
          (event_handler m g e.event_base e.event_id).2
            :: link_down_responses m (event_handler m g e.event_base e.event_id).1 evs
        else link_down_responses m (event_handler m g e.event_base e.event_id).1 evs := by
  by_cases h : e = link_down <;> simp [link_down_responses, handle_all, List.filter_cons, h]

/-- Without an address-acquired notification, the first `max - s_retry_num` link-downs are
each answered by one connect request and every later one by setting the fail bit. -/
theorem link_down_responses_eq (m : Int) (hm : m ≤ INT_MAX) :
    ∀ (evs : List Event) (g : Globals), INT_MIN ≤ g.s_retry_num →
      (∀ e ∈ evs, e ≠ address_acquired) →
      link_down_responses m g evs
        = List.replicate (min (evs.count link_down) (m - g.s_retry_num).toNat)
            [Call.esp_wifi_connect]
          ++ List.replicate (evs.count link_down - (m - g.s_retry_num).toNat)
            [Call.xEventGroupSetBits WIFI_FAIL_BIT] := by
  intro evs
  induction evs with
  | nil => intro g _ _; simp [link_down_responses, handle_all]
  | cons e evs ih =>
    intro g hlo hno
    have hno1 : ∀ e ∈ evs, e ≠ address_acquired := fun x hx => hno x (List.mem_cons_of_mem _ hx)
    rw [link_down_responses_cons]
    by_cases he : e = link_down
    · subst he
      rw [if_pos rfl, List.count_cons_self]
      by_cases hlt : g.s_retry_num < m
      · rw [event_handler_link_down_lt m hm g hlo hlt,
          ih _ (by simp only [INT_MIN] at hlo ⊢; omega) hno1]
        obtain ⟨d, hd⟩ : ∃ d : Nat, (m - g.s_retry_num).toNat = d + 1 :=
          ⟨(m - g.s_retry_num).toNat - 1, by omega⟩
        have hd1 : (m - (g.s_retry_num + 1)).toNat = d := by omega
        simp only [hd, hd1]
        rw [show min (List.count link_down evs + 1) (d + 1) = min (List.count link_down evs) d + 1
          by omega, List.replicate_succ,
          show List.count link_down evs + 1 - (d + 1) = List.count link_down evs - d by omega]
        rfl
      · have hge : m ≤ g.s_retry_num := by omega
        have hd : (m - g.s_retry_num).toNat = 0 := by omega
        rw [event_handler_link_down_ge m g hge,
          ih { g with s_wifi_event_group := g.s_wifi_event_group ||| WIFI_FAIL_BIT } hlo hno1]
        simp only [hd, Nat.min_zero, List.replicate_zero, List.nil_append, Nat.sub_zero,
          List.replicate_succ]
    · have hsame := event_handler_globals_same m g e he (hno e (List.mem_cons_self _ _))
      rw [if_neg he, hsame, ih g hlo hno1, List.count_cons_of_ne (Ne.symm he)]

theorem connect_requests_replicate (a b : Nat) (bits : Nat) :
    connect_requests (List.replicate a [Call.esp_wifi_connect]
      ++ List.replicate b [Call.xEventGroupSetBits bits]) = a := by
  simp [connect_requests, List.map_append, List.map_replicate, List.sum_replicate]

/-- Without an address-acquired notification: the retry counter after the run, the bits of
the event group after the run, how many notifications changed the bits, and how many times
the fail bit was signalled. -/
theorem run_without_address (m : Int) (hm : m ≤ INT_MAX) :
    ∀ (evs : List Event) (g : Globals), INT_MIN ≤ g.s_retry_num →
      (∀ e ∈ evs, e ≠ address_acquired) →
      (run m g evs).s_retry_num
          = g.s_retry_num + (min (evs.count link_down) (m - g.s_retry_num).toNat : Nat)
      ∧ (run m g evs).s_wifi_event_group
          = (if (m - g.s_retry_num).toNat < evs.count link_down
              then g.s_wifi_event_group ||| WIFI_FAIL_BIT else g.s_wifi_event_group)
      ∧ outcome_changes m g evs
          = (if (m - g.s_retry_num).toNat < evs.count link_down
                ∧ g.s_wifi_event_group &&& WIFI_FAIL_BIT = 0 then 1 else 0)
      ∧ signal_count WIFI_FAIL_BIT (handle_all m g evs)
          = evs.count link_down - (m - g.s_retry_num).toNat := by
  intro evs
  induction evs with
  | nil => intro g _ _; simp [run, outcome_changes, signal_count, handle_all]
  | cons e evs ih =>
    intro g hlo hno
    have hno1 : ∀ e ∈ evs, e ≠ address_acquired := fun x hx => hno x (List.mem_cons_of_mem _ hx)
    by_cases he : e = link_down
    · subst he
      simp only [run, outcome_changes, signal_count, handle_all, List.count_cons_self,
        List.map_cons, List.sum_cons]
      by_cases hlt : g.s_retry_num < m
      · obtain ⟨h1, h2, h3, h4⟩ := ih { g with s_retry_num := g.s_retry_num + 1 }
          (by simp only [INT_MIN] at hlo ⊢; omega) hno1
        simp only [signal_count] at h4
        obtain ⟨d, hd⟩ : ∃ d : Nat, (m - g.s_retry_num).toNat = d + 1 :=
          ⟨(m - g.s_retry_num).toNat - 1, by omega⟩
        have hd1 : (m - (g.s_retry_num + 1)).toNat = d := by omega
        rw [event_handler_link_down_lt m hm g hlo hlt]
        simp only [hd1] at h1 h2 h3 h4
        simp only [h1, h2, h3, h4, hd, Nat.add_lt_add_iff_right, if_true]
        refine ⟨?_, trivial, ?_, ?_⟩
        · omega
        · simp
        · simp
      · have hge : m ≤ g.s_retry_num := by omega
        have hd : (m - g.s_retry_num).toNat = 0 := by omega
        obtain ⟨h1, h2, h3, h4⟩ :=
          ih { g with s_wifi_event_group := g.s_wifi_event_group ||| WIFI_FAIL_BIT } hlo hno1
        simp only [signal_count] at h4
        rw [event_handler_link_down_ge m g hge]
        simp only [hd] at h1 h2 h3 h4
        simp only [h1, h2, h3, h4, hd, or_and_mask, Nat.or_assoc, Nat.or_self, ite_self]
        refine ⟨by simp, by simp, ?_, by simp; omega⟩
        have hmask : WIFI_FAIL_BIT ≠ 0 := by decide
        by_cases hb : g.s_wifi_event_group &&& WIFI_FAIL_BIT = 0
        · have : ¬ g.s_wifi_event_group ||| WIFI_FAIL_BIT = g.s_wifi_event_group := by
            rw [or_fail_eq_iff]; simpa using hb
          simp [this, hb, hmask]
        · have : g.s_wifi_event_group ||| WIFI_FAIL_BIT = g.s_wifi_event_group :=
            or_fail_of_failed _ hb
          simp [this, hb, hmask]
    · have hne : e ≠ address_acquired := hno e (List.mem_cons_self _ _)
      have hsame := event_handler_globals_same m g e he hne
      have hcalls : (event_handler m g e.event_base e.event_id).2.count
          (Call.xEventGroupSetBits WIFI_FAIL_BIT) = 0 := by
        by_cases h1 : e = link_start
        · subst h1; rw [event_handler_link_start]; simp
        · rw [event_handler_other m g e h1 he hne]; simp
      obtain ⟨h1, h2, h3, h4⟩ := ih g hlo hno1
      simp only [signal_count] at h4
      simp only [run, outcome_changes, signal_count, handle_all, List.map_cons, List.sum_cons,
        hsame, hcalls, h1, h2, h3, h4, List.count_cons_of_ne (Ne.symm he), if_true, Nat.zero_add]
      exact ⟨trivial, trivial, trivial, trivial⟩

theorem event_handler_keeps_bound (m : Int) (hm : 0 ≤ m) (hmax : m ≤ INT_MAX) (g : Globals)
    (hg : 0 ≤ g.s_retry_num ∧ g.s_retry_num ≤ m) (b : esp_event_base_t) (i : Int) :
    0 ≤ (event_handler m g b i).1.s_retry_num ∧ (event_handler m g b i).1.s_retry_num ≤ m := by
  simp only [INT_MAX] at hmax
  unfold event_handler int_wrap
  split_ifs <;> simp <;> omega

theorem run_keeps_bound (m : Int) (hm : 0 ≤ m) (hmax : m ≤ INT_MAX) :
    ∀ (evs : List Event) (g : Globals), (0 ≤ g.s_retry_num ∧ g.s_retry_num ≤ m) →
      0 ≤ (run m g evs).s_retry_num ∧ (run m g evs).s_retry_num ≤ m := by
  intro evs
  induction evs with
  | nil => intro g hg; exact hg
  | cons e evs ih =>
    intro g hg
    exact ih _ (event_handler_keeps_bound m hm hmax g hg e.event_base e.event_id)

theorem and_ne_zero_of_or (b x mask : Nat) (h : b &&& mask ≠ 0) : (b ||| x) &&& mask ≠ 0 := by
  obtain ⟨i, hi⟩ := Nat.ne_zero_implies_bit_true h
  intro hz
  have hfalse : ((b ||| x) &&& mask).testBit i = false := by rw [hz]; exact Nat.zero_testBit i
  rw [Nat.testBit_and] at hi
  rw [Nat.testBit_and, Nat.testBit_or] at hfalse
  rcases Bool.and_eq_true_iff.mp hi with ⟨h1, h2⟩
  rw [h1, h2] at hfalse
  simp at hfalse

/-- The handler only ever ors bits into the event group. -/
theorem event_handler_bits (m : Int) (g : Globals) (b : esp_event_base_t) (i : Int) :
    ∃ x, (event_handler m g b i).1.s_wifi_event_group = g.s_wifi_event_group ||| x := by
  unfold event_handler
  split_ifs
  · exact ⟨0, by simp⟩
  · exact ⟨0, by simp⟩
  · exact ⟨WIFI_FAIL_BIT, rfl⟩
  · exact ⟨WIFI_CONNECTED_BIT, rfl⟩
  · exact ⟨0, by simp⟩

/-! ### Limits beyond `INT_MAX` -/

/-- With a limit above `INT_MAX` every link-down is answered by a connect request and the
counter wraps around: after `k` link-downs it holds `s_retry_num + k` reduced to an `int`,
and the event group is untouched. -/
theorem run_link_downs_beyond_int (m : Int) (hm : INT_MAX < m) :
    ∀ (k : Nat) (g : Globals), INT_MIN ≤ g.s_retry_num → g.s_retry_num ≤ INT_MAX →
      run m g (List.replicate k link_down)
          = { g with s_retry_num := int_wrap (g.s_retry_num + (k : Int)) }
      ∧ link_down_responses m g (List.replicate k link_down)
          = List.replicate k [Call.esp_wifi_connect] := by
  intro k
  induction k with
  | zero =>
    intro g hlo hhi
    simp [run, link_down_responses, handle_all, int_wrap_eq _ hlo hhi]
  | succ k ih =>
    intro g hlo hhi
    have hlt : g.s_retry_num < m := by omega
    have hr := int_wrap_range (g.s_retry_num + 1)
    obtain ⟨h1, h2⟩ := ih { g with s_retry_num := int_wrap (g.s_retry_num + 1) } hr.1 hr.2
    rw [List.replicate_succ, link_down_responses_cons, if_pos rfl]
    simp only [run, event_handler_link_down_wrap m g hlt, h1, h2, int_wrap_add, true_and,
      List.replicate_succ]

/-! ### The claims about the state machine -/

/-- C3, counterexample. With the limit 3000000000 and `s_retry_num = 2147483647`, a state
with `0 ≤ s_retry_num < limit`, handling a link-down leaves `s_retry_num` at `-2147483648`,
not at the old value plus 1: the `int` counter overflows. -/
theorem link_down_overflows_int :
    (0 : Int) ≤ (Globals.mk 2147483647 0).s_retry_num
      ∧ (Globals.mk 2147483647 0).s_retry_num < 3000000000
      ∧ event_handler 3000000000 ⟨2147483647, 0⟩ esp_event_base_t.WIFI_EVENT
          WIFI_EVENT_STA_DISCONNECTED = (⟨-2147483648, 0⟩, [Call.esp_wifi_connect])
      ∧ (event_handler 3000000000 ⟨2147483647, 0⟩ esp_event_base_t.WIFI_EVENT
          WIFI_EVENT_STA_DISCONNECTED).1.s_retry_num ≠ 2147483647 + 1 := by
  refine ⟨by decide, by decide, ?_, ?_⟩
  · have h := event_handler_link_down_wrap 3000000000 ⟨2147483647, 0⟩ (by decide)
    simp only [link_down] at h
    rw [h]
    simp [int_wrap]
  · have h := event_handler_link_down_wrap 3000000000 ⟨2147483647, 0⟩ (by decide)
    simp only [link_down] at h
    rw [h]
    simp [int_wrap]

/-- C3, amended. For a limit that fits an `int` (`EXAMPLE_ESP_MAXIMUM_RETRY ≤ INT_MAX`), in a
state with `0 ≤ s_retry_num < EXAMPLE_ESP_MAXIMUM_RETRY`, handling
`WIFI_EVENT_STA_DISCONNECTED` issues exactly one connect request and nothing else, leaves
`s_retry_num` at its old value plus 1, and produces no Outcome: the event-group bits, and so
the connected and failed tests, are unchanged. -/
theorem link_down_below_limit_retries (m : Int) (hm : m ≤ INT_MAX) (g : Globals)
    (h0 : 0 ≤ g.s_retry_num) (h : g.s_retry_num < m) :
    (event_handler m g esp_event_base_t.WIFI_EVENT WIFI_EVENT_STA_DISCONNECTED).2
        = [Call.esp_wifi_connect]
      ∧ (event_handler m g esp_event_base_t.WIFI_EVENT WIFI_EVENT_STA_DISCONNECTED).1.s_retry_num
          = g.s_retry_num + 1
      ∧ (event_handler m g esp_event_base_t.WIFI_EVENT
          WIFI_EVENT_STA_DISCONNECTED).1.s_wifi_event_group = g.s_wifi_event_group
      ∧ outcome_connected (event_handler m g esp_event_base_t.WIFI_EVENT
          WIFI_EVENT_STA_DISCONNECTED).1 = outcome_connected g
      ∧ outcome_failed (event_handler m g esp_event_base_t.WIFI_EVENT
          WIFI_EVENT_STA_DISCONNECTED).1 = outcome_failed g := by
  have hlo : INT_MIN ≤ g.s_retry_num := by simp only [INT_MIN]; omega
  have hstep := event_handler_link_down_lt m hm g hlo h
  simp only [link_down] at hstep
  rw [hstep]
  exact ⟨rfl, rfl, rfl, rfl, rfl⟩

/-- Witness of C3, amended: limit 3, one retry made so far, no Outcome yet. -/
theorem link_down_below_limit_retries_witness :
    (event_handler 3 ⟨1, 0⟩ esp_event_base_t.WIFI_EVENT WIFI_EVENT_STA_DISCONNECTED).2
        = [Call.esp_wifi_connect]
      ∧ (event_handler 3 ⟨1, 0⟩ esp_event_base_t.WIFI_EVENT
          WIFI_EVENT_STA_DISCONNECTED).1.s_retry_num = 1 + 1
      ∧ (event_handler 3 ⟨1, 0⟩ esp_event_base_t.WIFI_EVENT
          WIFI_EVENT_STA_DISCONNECTED).1.s_wifi_event_group = 0
      ∧ outcome_connected (event_handler 3 ⟨1, 0⟩ esp_event_base_t.WIFI_EVENT
          WIFI_EVENT_STA_DISCONNECTED).1 = outcome_connected ⟨1, 0⟩
      ∧ outcome_failed (event_handler 3 ⟨1, 0⟩ esp_event_base_t.WIFI_EVENT
          WIFI_EVENT_STA_DISCONNECTED).1 = outcome_failed ⟨1, 0⟩ :=
  link_down_below_limit_retries 3 (by decide) ⟨1, 0⟩ (by decide) (by decide)

/-- C4, counterexample. With limit 2 and four link-downs from the initial state the fail
bit is signalled twice, not once, while the Outcome changes once. With the limit 3000000000
and 3000000001 link-downs from the initial state, more than the limit, the Outcome never
becomes failed: the `int` counter wraps before it reaches the limit. -/
theorem fail_signal_not_once :
    signal_count WIFI_FAIL_BIT
        (handle_all 2 init_globals [link_down, link_down, link_down, link_down]) = 2
      ∧ outcome_changes 2 init_globals [link_down, link_down, link_down, link_down] = 1
      ∧ (3000000000 : Int).toNat < (List.replicate 3000000001 link_down).count link_down
      ∧ outcome_failed (run 3000000000 init_globals (List.replicate 3000000001 link_down))
          = false := by
  refine ⟨by decide, by decide, ?_, ?_⟩
  · rw [List.count_replicate_self]; decide
  · rw [(run_link_downs_beyond_int 3000000000 (by decide) 3000000001 init_globals
      (by decide) (by decide)).1]
    rfl

/-- C4, amended. In a state with `s_retry_num ≥ EXAMPLE_ESP_MAXIMUM_RETRY`, handling
`WIFI_EVENT_STA_DISCONNECTED` sets the fail bit by one call of `xEventGroupSetBits`, issues no
connect request and leaves `s_retry_num` unchanged. Starting from the initial state with a
limit that fits an `int`, for every sequence of notifications without address-acquired that
has more link-downs than the limit: exactly one notification changes the Outcome, the Outcome
after the run is failed and not connected, and the fail bit is signalled at each link-down
after the last retry, that is (number of link-downs − limit) times, which is once exactly
when the link-downs number limit + 1. -/
theorem link_down_at_limit_fails (m : Int) (g : Globals) (h : m ≤ g.s_retry_num) :
    event_handler m g esp_event_base_t.WIFI_EVENT WIFI_EVENT_STA_DISCONNECTED
        = ({ g with s_wifi_event_group := g.s_wifi_event_group ||| WIFI_FAIL_BIT },
            [Call.xEventGroupSetBits WIFI_FAIL_BIT])
      ∧ outcome_failed (event_handler m g esp_event_base_t.WIFI_EVENT
          WIFI_EVENT_STA_DISCONNECTED).1 = true
      ∧ Call.esp_wifi_connect ∉ (event_handler m g esp_event_base_t.WIFI_EVENT
          WIFI_EVENT_STA_DISCONNECTED).2
      ∧ (event_handler m g esp_event_base_t.WIFI_EVENT WIFI_EVENT_STA_DISCONNECTED).1.s_retry_num
          = g.s_retry_num
      ∧ ∀ evs : List Event, m ≤ INT_MAX → (∀ e ∈ evs, e ≠ address_acquired) →
          m.toNat < evs.count link_down →
            outcome_changes m init_globals evs = 1
            ∧ outcome_failed (run m init_globals evs) = true
            ∧ outcome_connected (run m init_globals evs) = false
            ∧ signal_count WIFI_FAIL_BIT (handle_all m init_globals evs)
                = evs.count link_down - m.toNat
            ∧ (signal_count WIFI_FAIL_BIT (handle_all m init_globals evs) = 1
                ↔ evs.count link_down = m.toNat + 1) := by
  have hstep := event_handler_link_down_ge m g h
  simp only [link_down] at hstep
  rw [hstep]
  refine ⟨rfl, ?_, by simp, rfl, ?_⟩
  · simp [outcome_failed, or_and_mask, WIFI_FAIL_BIT, BIT1]
  · intro evs hmax hno hk
    obtain ⟨_, h2, h3, h4⟩ := run_without_address m hmax evs init_globals (by decide) hno
    have hd : (m - init_globals.s_retry_num).toNat = m.toNat := by simp [init_globals]
    rw [hd] at h2 h3 h4
    refine ⟨?_, ?_, ?_, h4, ?_⟩
    · rw [h3]; simp [hk, init_globals]
    · simp only [outcome_failed, h2, hk, if_true, or_and_mask]; decide
    · simp only [outcome_connected, h2, hk, if_true]; decide
    · rw [h4]; omega

/-- Witness of C4, amended: limit 2 and two retries already made; and the initial state
with limit 2 and three link-downs. -/
theorem link_down_at_limit_fails_witness :
    (2 : Int) ≤ (Globals.mk 2 0).s_retry_num
      ∧ event_handler 2 ⟨2, 0⟩ esp_event_base_t.WIFI_EVENT WIFI_EVENT_STA_DISCONNECTED
          = (⟨2, WIFI_FAIL_BIT⟩, [Call.xEventGroupSetBits WIFI_FAIL_BIT])
      ∧ outcome_changes 2 init_globals [link_start, link_down, link_down, link_down] = 1
      ∧ outcome_failed (run 2 init_globals [link_start, link_down, link_down, link_down]) = true
      ∧ signal_count WIFI_FAIL_BIT
          (handle_all 2 init_globals [link_start, link_down, link_down, link_down]) = 1 := by
  have hw := link_down_at_limit_fails 2 ⟨2, 0⟩ (by decide)
  have hrun := hw.2.2.2.2 [link_start, link_down, link_down, link_down] (by decide) (by decide)
    (by decide)
  exact ⟨by decide, hw.1.trans (by decide), hrun.1, hrun.2.1, hrun.2.2.2.2.mpr (by decide)⟩

/-- C5. Whatever the retry counter, handling `IP_EVENT_STA_GOT_IP` sets `s_retry_num` to 0 and
sets the connected bit by one call of `xEventGroupSetBits`; it issues no connect request, does
not signal the fail bit, and leaves the failed test as it was (false while still connecting). -/
theorem address_acquired_connects (m : Int) (g : Globals) :
    event_handler m g esp_event_base_t.IP_EVENT IP_EVENT_STA_GOT_IP
        = (⟨0, g.s_wifi_event_group ||| WIFI_CONNECTED_BIT⟩,
            [Call.xEventGroupSetBits WIFI_CONNECTED_BIT])
      ∧ (event_handler m g esp_event_base_t.IP_EVENT IP_EVENT_STA_GOT_IP).1.s_retry_num = 0
      ∧ outcome_connected (event_handler m g esp_event_base_t.IP_EVENT IP_EVENT_STA_GOT_IP).1
          = true
      ∧ Call.esp_wifi_connect ∉ (event_handler m g esp_event_base_t.IP_EVENT IP_EVENT_STA_GOT_IP).2
      ∧ Call.xEventGroupSetBits WIFI_FAIL_BIT
          ∉ (event_handler m g esp_event_base_t.IP_EVENT IP_EVENT_STA_GOT_IP).2
      ∧ outcome_failed (event_handler m g esp_event_base_t.IP_EVENT IP_EVENT_STA_GOT_IP).1
          = outcome_failed g := by
  have hstep := event_handler_address_acquired m g
  simp only [address_acquired] at hstep
  rw [hstep]
  refine ⟨rfl, rfl, ?_, by simp, by simp [WIFI_FAIL_BIT, WIFI_CONNECTED_BIT, BIT0, BIT1], ?_⟩
  · simp [outcome_connected, or_and_mask, WIFI_CONNECTED_BIT, BIT0]
  · simp [outcome_failed, or_connected_and_fail]

/-- Witness of C5: limit 5, three retries made, no Outcome yet. -/
theorem address_acquired_connects_witness :
    event_handler 5 ⟨3, 0⟩ esp_event_base_t.IP_EVENT IP_EVENT_STA_GOT_IP
        = (⟨0, WIFI_CONNECTED_BIT⟩, [Call.xEventGroupSetBits WIFI_CONNECTED_BIT])
      ∧ outcome_connected (event_handler 5 ⟨3, 0⟩ esp_event_base_t.IP_EVENT
          IP_EVENT_STA_GOT_IP).1 = true
      ∧ outcome_failed (event_handler 5 ⟨3, 0⟩ esp_event_base_t.IP_EVENT
          IP_EVENT_STA_GOT_IP).1 = false :=
  ⟨(address_acquired_connects 5 ⟨3, 0⟩).1.trans (by decide),
    (address_acquired_connects 5 ⟨3, 0⟩).2.2.1,
    (address_acquired_connects 5 ⟨3, 0⟩).2.2.2.2.2.trans (by decide)⟩

/-- C6, counterexample. With limit 5, after link-start and address-acquired the Outcome is
connected; a link-down handled in that state issues a connect request and raises
`s_retry_num` from 0 to 1. Hence it is not true that every notification handled after an
Outcome leaves the state unchanged and issues no connect request. -/
theorem terminal_state_not_absorbing :
    outcome_connected (run 5 init_globals [link_start, address_acquired]) = true
      ∧ event_handler 5 (run 5 init_globals [link_start, address_acquired])
          esp_event_base_t.WIFI_EVENT WIFI_EVENT_STA_DISCONNECTED
          = (⟨1, WIFI_CONNECTED_BIT⟩, [Call.esp_wifi_connect])
      ∧ ¬ (∀ (m : Int) (g : Globals) (e : Event),
            (outcome_connected g = true ∨ outcome_failed g = true) →
              event_handler m g e.event_base e.event_id = (g, [])) := by
  refine ⟨by decide, by decide, ?_⟩
  intro hall
  have := hall 5 (run 5 init_globals [link_start, address_acquired]) link_down (Or.inl (by decide))
  exact absurd this (by decide)

/-- C6, amended. No notification ever clears an Outcome bit: whatever is handled, a state that
tests connected still tests connected and a state that tests failed still tests failed. A
link-down in the failed state (fail bit set, `s_retry_num` at or above the limit) and an
address-acquired in the connected state (connected bit set, `s_retry_num = 0`) leave the
globals unchanged and issue no connect request; a link-start leaves the globals unchanged in
every state and issues one connect request; any other notification leaves the globals
unchanged and makes no call. A link-down with `s_retry_num` below the limit is handled the
same whatever the Outcome: one connect request and the counter incremented. -/
theorem outcome_bits_persist (m : Int) (g : Globals) :
    (∀ (b : esp_event_base_t) (i : Int),
        g.s_wifi_event_group &&& (event_handler m g b i).1.s_wifi_event_group
            = g.s_wifi_event_group
          ∧ (outcome_connected g = true → outcome_connected (event_handler m g b i).1 = true)
          ∧ (outcome_failed g = true → outcome_failed (event_handler m g b i).1 = true))
      ∧ (outcome_failed g = true → m ≤ g.s_retry_num →
          event_handler m g esp_event_base_t.WIFI_EVENT WIFI_EVENT_STA_DISCONNECTED
            = (g, [Call.xEventGroupSetBits WIFI_FAIL_BIT]))
      ∧ (outcome_connected g = true → g.s_retry_num = 0 →
          event_handler m g esp_event_base_t.IP_EVENT IP_EVENT_STA_GOT_IP
            = (g, [Call.xEventGroupSetBits WIFI_CONNECTED_BIT]))
      ∧ event_handler m g esp_event_base_t.WIFI_EVENT WIFI_EVENT_STA_START
          = (g, [Call.esp_wifi_connect])
      ∧ (∀ e : Event, e ≠ link_start → e ≠ link_down → e ≠ address_acquired →
          event_handler m g e.event_base e.event_id = (g, []))
      ∧ (g.s_retry_num < m →
          event_handler m g esp_event_base_t.WIFI_EVENT WIFI_EVENT_STA_DISCONNECTED
            = ({ g with s_retry_num := int_wrap (g.s_retry_num + 1) }, [Call.esp_wifi_connect])) := by
  refine ⟨?_, ?_, ?_, event_handler_link_start m g, event_handler_other m g,
    event_handler_link_down_wrap m g⟩
  · intro b i
    obtain ⟨x, hx⟩ := event_handler_bits m g b i
    rw [hx]
    refine ⟨or_absorb _ _, ?_, ?_⟩
    · intro hc
      simp only [outcome_connected, bne_iff_ne, ne_eq] at hc ⊢
      rw [hx]
      exact and_ne_zero_of_or _ _ _ hc
    · intro hf
      simp only [outcome_failed, bne_iff_ne, ne_eq] at hf ⊢
      rw [hx]
      exact and_ne_zero_of_or _ _ _ hf
  · intro hf hge
    have hstep := event_handler_link_down_ge m g hge
    simp only [link_down] at hstep
    simp only [outcome_failed, bne_iff_ne, ne_eq] at hf
    rw [hstep, or_fail_of_failed _ hf]
  · intro hc h0
    have hstep := event_handler_address_acquired m g
    simp only [address_acquired] at hstep
    simp only [outcome_connected, bne_iff_ne, ne_eq] at hc
    rw [hstep, or_connected_of_connected _ hc, ← h0]

/-- Witness of C6, amended: with limit 2, a link-down in the failed state and an
address-acquired in the connected state change nothing. -/
theorem outcome_bits_persist_witness :
    event_handler 2 ⟨2, WIFI_FAIL_BIT⟩ esp_event_base_t.WIFI_EVENT WIFI_EVENT_STA_DISCONNECTED
        = (⟨2, WIFI_FAIL_BIT⟩, [Call.xEventGroupSetBits WIFI_FAIL_BIT])
      ∧ event_handler 2 ⟨0, WIFI_CONNECTED_BIT⟩ esp_event_base_t.IP_EVENT IP_EVENT_STA_GOT_IP
        = (⟨0, WIFI_CONNECTED_BIT⟩, [Call.xEventGroupSetBits WIFI_CONNECTED_BIT])
      ∧ outcome_connected (event_handler 2 ⟨0, WIFI_CONNECTED_BIT⟩ esp_event_base_t.WIFI_EVENT
          WIFI_EVENT_STA_DISCONNECTED).1 = true :=
  ⟨(outcome_bits_persist 2 ⟨2, WIFI_FAIL_BIT⟩).2.1 (by decide) (by decide),
    (outcome_bits_persist 2 ⟨0, WIFI_CONNECTED_BIT⟩).2.2.1 (by decide) rfl,
    ((outcome_bits_persist 2 ⟨0, WIFI_CONNECTED_BIT⟩).1 esp_event_base_t.WIFI_EVENT
      WIFI_EVENT_STA_DISCONNECTED).2.1 (by decide)⟩

/-- C8, counterexample. With the limit 3000000000, which is `≥ 0`, starting from
`s_retry_num = 0`, after 2147483648 link-downs the counter holds `-2147483648`: the `int`
counter has overflowed and `0 ≤ s_retry_num` fails. -/
theorem retry_count_overflows :
    init_globals.s_retry_num = 0
      ∧ (run 3000000000 init_globals (List.replicate 2147483648 link_down)).s_retry_num
          = -2147483648
      ∧ ¬ (0 ≤ (run 3000000000 init_globals (List.replicate 2147483648 link_down)).s_retry_num
            ∧ (run 3000000000 init_globals (List.replicate 2147483648 link_down)).s_retry_num
                ≤ 3000000000) := by
  have hrun := (run_link_downs_beyond_int 3000000000 (by decide) 2147483648 init_globals
    (by decide) (by decide)).1
  have hval : (run 3000000000 init_globals (List.replicate 2147483648 link_down)).s_retry_num
      = -2147483648 := by
    rw [hrun]
    simp [init_globals, int_wrap]
  refine ⟨rfl, hval, ?_⟩
  rw [hval]
  decide

/-- C8, amended. Starting from `s_retry_num = 0` with a limit `≥ 0` that fits an `int`
(`EXAMPLE_ESP_MAXIMUM_RETRY ≤ INT_MAX`), after every finite sequence of notifications of any
kind, `0 ≤ s_retry_num ≤ EXAMPLE_ESP_MAXIMUM_RETRY`. -/
theorem retry_count_within_limit (m : Int) (hm : 0 ≤ m) (hmax : m ≤ INT_MAX) (g : Globals)
    (hg : g.s_retry_num = 0) (evs : List Event) :
    0 ≤ (run m g evs).s_retry_num ∧ (run m g evs).s_retry_num ≤ m :=
  run_keeps_bound m hm hmax evs g (by omega)

/-- Witness of C8, amended: limit 2 and a sequence with link-downs past the limit, an
address-acquired, an unrelated event and a further link-down. -/
theorem retry_count_within_limit_witness :
    0 ≤ (run 2 init_globals [link_start, link_down, link_down, link_down, address_acquired,
          ⟨esp_event_base_t.OTHER 7, 1⟩, link_down]).s_retry_num
      ∧ (run 2 init_globals [link_start, link_down, link_down, link_down, address_acquired,
          ⟨esp_event_base_t.OTHER 7, 1⟩, link_down]).s_retry_num ≤ 2 :=
  retry_count_within_limit 2 (by decide) (by decide) init_globals rfl _

/-- C9, counterexample. With the limit 3000000000, starting from `s_retry_num = 0`, a
sequence of 3000000001 link-downs (no address-acquired) is answered by 3000000001 connect
requests: more than the limit, and not the minimum of the two. -/
theorem connect_requests_exceed_limit :
    (∀ e ∈ List.replicate 3000000001 link_down, e ≠ address_acquired)
      ∧ (List.replicate 3000000001 link_down).count link_down = 3000000001
      ∧ connect_requests (link_down_responses 3000000000 init_globals
          (List.replicate 3000000001 link_down)) = 3000000001
      ∧ ¬ ((connect_requests (link_down_responses 3000000000 init_globals
              (List.replicate 3000000001 link_down)) : Int)
            = min (((List.replicate 3000000001 link_down).count link_down : Nat) : Int)
                3000000000) := by
  have hresp := (run_link_downs_beyond_int 3000000000 (by decide) 3000000001 init_globals
    (by decide) (by decide)).2
  have hreq : connect_requests (link_down_responses 3000000000 init_globals
      (List.replicate 3000000001 link_down)) = 3000000001 := by
    rw [hresp]
    have := connect_requests_replicate 3000000001 0 WIFI_FAIL_BIT
    rw [List.replicate_zero, List.append_nil] at this
    exact this
  refine ⟨?_, List.count_replicate_self _ _, hreq, ?_⟩
  · intro e he
    rw [List.eq_of_mem_replicate he]
    decide
  · rw [hreq, List.count_replicate_self]
    decide

/-- C9, amended. Starting from `s_retry_num = 0` with a limit `≥ 0` that fits an `int`
(`EXAMPLE_ESP_MAXIMUM_RETRY ≤ INT_MAX`), for every finite sequence of notifications without
address-acquired that contains `k` link-downs: the connect requests issued in response to
link-downs number `min k EXAMPLE_ESP_MAXIMUM_RETRY`, never more than the limit; the first
`min k limit` link-downs are each answered by exactly one connect request and every later one
by setting the fail bit, without a connect request. -/
theorem bounded_retry (m : Int) (hm : 0 ≤ m) (hmax : m ≤ INT_MAX) (g : Globals)
    (hg : g.s_retry_num = 0) (evs : List Event) (hno : ∀ e ∈ evs, e ≠ address_acquired) :
    (connect_requests (link_down_responses m g evs) : Int) = min (evs.count link_down : Int) m
      ∧ (connect_requests (link_down_responses m g evs) : Int) ≤ m
      ∧ link_down_responses m g evs
          = List.replicate (min (evs.count link_down) m.toNat) [Call.esp_wifi_connect]
            ++ List.replicate (evs.count link_down - m.toNat)
                [Call.xEventGroupSetBits WIFI_FAIL_BIT] := by
  have hresp := link_down_responses_eq m hmax evs g (by rw [hg]; decide) hno
  have hd : (m - g.s_retry_num).toNat = m.toNat := by rw [hg]; simp
  rw [hd] at hresp
  rw [hresp, connect_requests_replicate]
  refine ⟨?_, ?_, rfl⟩ <;> omega

/-- Witness of C9, amended: limit 2 and four link-downs give two connect requests in
response. -/
theorem bounded_retry_witness :
    (connect_requests (link_down_responses 2 init_globals
        [link_start, link_down, link_down, link_down, link_down]) : Int) = 2
      ∧ link_down_responses 2 init_globals [link_start, link_down, link_down, link_down, link_down]
          = [[Call.esp_wifi_connect], [Call.esp_wifi_connect],
             [Call.xEventGroupSetBits WIFI_FAIL_BIT], [Call.xEventGroupSetBits WIFI_FAIL_BIT]] := by
  have hw := bounded_retry 2 (by decide) (by decide) init_globals rfl
    [link_start, link_down, link_down, link_down, link_down] (by decide)
  exact ⟨hw.1.trans (by decide), hw.2.2.trans (by decide)⟩

/-- Witness of C10: the line written for `rssi = -54` and samples `[4, -3, 0, 127, -128]`
decodes back to them. -/
theorem wifi_csi_cb_line_decodes_witness :
    wifi_csi_cb (some ⟨⟨-54⟩, some [4, 253, 0, 127, 128], 5⟩)
        = some "CSI_DATA,-54,[ 4 -3 0 127 -128 ]\n"
      ∧ decode_line "CSI_DATA,-54,[ 4 -3 0 127 -128 ]\n".data
        = some (-54, [4, -3, 0, 127, -128]) := by
  obtain ⟨line, _, _, hw, _, _, _, _, _, _, _, hdec, _⟩ :=
    wifi_csi_cb_line_decodes ⟨⟨-54⟩, some [4, 253, 0, 127, 128], 5⟩ [4, 253, 0, 127, 128]
      rfl (by decide) (by decide)
  have hline : line = "CSI_DATA,-54,[ 4 -3 0 127 -128 ]\n" :=
    Option.some.inj (hw.symm.trans (by decide))
  rw [hline] at hdec
  exact ⟨by decide, hdec.trans (by decide)⟩

/-! ## Theorems: activation of CSI reporting -/

theorem append_ne_append (p q a b : String) (n : Nat) (hp : n ≤ p.data.length)
    (hq : n ≤ q.data.length) (hne : p.data.take n ≠ q.data.take n) : p ++ a ≠ q ++ b := by
  intro h
  apply hne
  have := congrArg (fun s : String => s.data.take n) h
  simpa [String.data_append, List.take_append_of_le_length hp,
    List.take_append_of_le_length hq] using this

theorem rx_cb_message_ne_config (a b : String) :
    "esp_wifi_set_csi_rx_cb failed: " ++ a ≠ "esp_wifi_set_csi_config failed: " ++ b :=
  append_ne_append _ _ a b 18 (by decide) (by decide) (by decide)

theorem rx_cb_message_ne_enable (a b : String) :
    "esp_wifi_set_csi_rx_cb failed: " ++ a ≠ "esp_wifi_set_csi(true) failed: " ++ b :=
  append_ne_append _ _ a b 18 (by decide) (by decide) (by decide)

theorem config_message_ne_enable (a b : String) :
    "esp_wifi_set_csi_config failed: " ++ a ≠ "esp_wifi_set_csi(true) failed: " ++ b :=
  append_ne_append _ _ a b 18 (by decide) (by decide) (by decide)

/-- The first line logged by `wifi_enable_csi`, by the first failing step. -/
theorem wifi_enable_csi_first_line (name : Int → String) (d : DriverResults) :
    (wifi_enable_csi name d).2.head?
      = match failing_step d with
        | some Step.registration =>
          some (LogLine.ESP_LOGE TAG ("esp_wifi_set_csi_rx_cb failed: " ++ name d.set_csi_rx_cb))
        | some Step.configuration =>
          some (LogLine.ESP_LOGE TAG ("esp_wifi_set_csi_config failed: " ++ name d.set_csi_config))
        | some Step.enable =>
          some (LogLine.ESP_LOGE TAG ("esp_wifi_set_csi(true) failed: " ++ name d.set_csi))
        | none => some (LogLine.ESP_LOGI TAG "CSI enabled.") := by
  unfold wifi_enable_csi failing_step
  split_ifs <;> rfl

/-- C7. Whatever the three driver calls return, `wifi_enable_csi` makes them in the order
register callback, set configuration, enable, and stops at the first that fails: when
registration fails it is the only call made; when configuration fails the enable call is not
made; the error line logged names the failing call, and runs failing at different steps (or
succeeding) never log the same first line; and `CSI enabled.` is logged, with no error line,
if and only if all three calls return `ESP_OK`, an error line being logged otherwise. When all
three return `ESP_OK` the calls made are exactly the three, in that order, and the only line
logged is `CSI enabled.`; the registration call is always made first, the configuration call
is made exactly when registration succeeds, and the enable call exactly when registration and
configuration succeed. -/
theorem wifi_enable_csi_stops_at_first_failure (name : Int → String) (d : DriverResults) :
    (wifi_enable_csi name d).1 <+: [DriverCall.esp_wifi_set_csi_rx_cb,
        DriverCall.esp_wifi_set_csi_config csi_config, DriverCall.esp_wifi_set_csi true]
      ∧ (d.set_csi_rx_cb ≠ ESP_OK →
          (wifi_enable_csi name d).1 = [DriverCall.esp_wifi_set_csi_rx_cb]
          ∧ (wifi_enable_csi name d).1.length = 1
          ∧ (wifi_enable_csi name d).2 = [LogLine.ESP_LOGE TAG
              ("esp_wifi_set_csi_rx_cb failed: " ++ name d.set_csi_rx_cb)])
      ∧ (d.set_csi_rx_cb = ESP_OK → d.set_csi_config ≠ ESP_OK →
          (wifi_enable_csi name d).1 = [DriverCall.esp_wifi_set_csi_rx_cb,
              DriverCall.esp_wifi_set_csi_config csi_config]
          ∧ (wifi_enable_csi name d).2.head? = some (LogLine.ESP_LOGE TAG
              ("esp_wifi_set_csi_config failed: " ++ name d.set_csi_config)))
      ∧ (d.set_csi_rx_cb = ESP_OK → d.set_csi_config = ESP_OK → d.set_csi ≠ ESP_OK →
          (wifi_enable_csi name d).1 = [DriverCall.esp_wifi_set_csi_rx_cb,
              DriverCall.esp_wifi_set_csi_config csi_config, DriverCall.esp_wifi_set_csi true]
          ∧ (wifi_enable_csi name d).2 = [LogLine.ESP_LOGE TAG
              ("esp_wifi_set_csi(true) failed: " ++ name d.set_csi)])
      ∧ (LogLine.ESP_LOGI TAG "CSI enabled." ∈ (wifi_enable_csi name d).2
          ↔ d.set_csi_rx_cb = ESP_OK ∧ d.set_csi_config = ESP_OK ∧ d.set_csi = ESP_OK)
      ∧ ((∃ tag msg, LogLine.ESP_LOGE tag msg ∈ (wifi_enable_csi name d).2)
          ↔ ¬ (d.set_csi_rx_cb = ESP_OK ∧ d.set_csi_config = ESP_OK ∧ d.set_csi = ESP_OK))
      ∧ (∀ d2 : DriverResults, failing_step d2 ≠ failing_step d →
          (wifi_enable_csi name d2).2.head? ≠ (wifi_enable_csi name d).2.head?)
      ∧ (d.set_csi_rx_cb = ESP_OK → d.set_csi_config = ESP_OK → d.set_csi = ESP_OK →
          wifi_enable_csi name d
            = ([DriverCall.esp_wifi_set_csi_rx_cb, DriverCall.esp_wifi_set_csi_config csi_config,
                DriverCall.esp_wifi_set_csi true],
               [LogLine.ESP_LOGI TAG "CSI enabled."]))
      ∧ (d.set_csi_rx_cb = ESP_OK → d.set_csi_config ≠ ESP_OK →
          (wifi_enable_csi name d).2
            = [LogLine.ESP_LOGE TAG ("esp_wifi_set_csi_config failed: " ++ name d.set_csi_config),
               LogLine.ESP_LOGE TAG
                 "MENUCONFIG'te WiFi CSI enable ettin mi? (Component config -> Wi-Fi -> CSI)"])
      ∧ (wifi_enable_csi name d).1.head? = some DriverCall.esp_wifi_set_csi_rx_cb
      ∧ (DriverCall.esp_wifi_set_csi_config csi_config ∈ (wifi_enable_csi name d).1
          ↔ d.set_csi_rx_cb = ESP_OK)
      ∧ (DriverCall.esp_wifi_set_csi true ∈ (wifi_enable_csi name d).1
          ↔ d.set_csi_rx_cb = ESP_OK ∧ d.set_csi_config = ESP_OK) := by
  refine ⟨?_, ?_, ?_, ?_, ?_, ?_, ?_, ?_, ?_, ?_, ?_, ?_⟩
  · unfold wifi_enable_csi
    split_ifs
    · exact ⟨[_, _], rfl⟩
    · exact ⟨[_], rfl⟩
    · exact ⟨[], rfl⟩
    · exact ⟨[], rfl⟩
  · intro h1
    simp [wifi_enable_csi, h1]
  · intro h1 h2
    simp [wifi_enable_csi, h1, h2]
  · intro h1 h2 h3
    simp [wifi_enable_csi, h1, h2, h3]
  · unfold wifi_enable_csi
    split_ifs with h1 h2 h3 <;> simp_all
  · unfold wifi_enable_csi
    split_ifs with h1 h2 h3
    · exact ⟨fun _ h => h1 h.1, fun _ => ⟨_, _, List.mem_cons_self _ _⟩⟩
    · exact ⟨fun _ h => h2 h.2.1, fun _ => ⟨_, _, List.mem_cons_self _ _⟩⟩
    · exact ⟨fun _ h => h3 h.2.2, fun _ => ⟨_, _, List.mem_cons_self _ _⟩⟩
    · refine ⟨fun ⟨tag, msg, hmem⟩ => ?_, fun h => ?_⟩
      · simp at hmem
      · exact absurd ⟨not_not.mp h1, not_not.mp h2, not_not.mp h3⟩ h
  · intro d2 hne
    rw [wifi_enable_csi_first_line, wifi_enable_csi_first_line]
    have s1 := fun a b => (rx_cb_message_ne_config a b).symm
    have s2 := fun a b => (rx_cb_message_ne_enable a b).symm
    have s3 := fun a b => (config_message_ne_enable a b).symm
    rcases h1 : failing_step d with _ | x <;> rcases h2 : failing_step d2 with _ | y
    · exact absurd (h2.trans h1.symm) hne
    · cases y <;> simp
    · cases x <;> simp
    · cases x <;> cases y <;>
        first
          | exact absurd (h2.trans h1.symm) hne
          | simp [rx_cb_message_ne_config, rx_cb_message_ne_enable, config_message_ne_enable,
              s1, s2, s3]
  · intro h1 h2 h3
    simp [wifi_enable_csi, h1, h2, h3]
  · intro h1 h2
    simp [wifi_enable_csi, h1, h2]
  · unfold wifi_enable_csi
    split_ifs <;> rfl
  · unfold wifi_enable_csi
    split_ifs with h1 h2 h3 <;> simp_all
  · unfold wifi_enable_csi
    split_ifs with h1 h2 h3 <;> simp_all

/-- Witness of C7: a failing registration (error code `-1`) is the only call made; a failing
configuration (error code `258`) stops before the enable call; three successes make the three
calls in order and log `CSI enabled.`. -/
theorem wifi_enable_csi_stops_at_first_failure_witness :
    (wifi_enable_csi (fun _ => "ESP_FAIL") ⟨-1, 0, 0⟩).1 = [DriverCall.esp_wifi_set_csi_rx_cb]
      ∧ (wifi_enable_csi (fun _ => "ESP_FAIL") ⟨-1, 0, 0⟩).1.length = 1
      ∧ (wifi_enable_csi (fun _ => "ESP_FAIL") ⟨-1, 0, 0⟩).2
          = [LogLine.ESP_LOGE TAG "esp_wifi_set_csi_rx_cb failed: ESP_FAIL"]
      ∧ (wifi_enable_csi (fun _ => "ESP_ERR_INVALID_ARG") ⟨0, 258, 0⟩).1
          = [DriverCall.esp_wifi_set_csi_rx_cb, DriverCall.esp_wifi_set_csi_config csi_config]
      ∧ wifi_enable_csi (fun _ => "ESP_OK") ⟨0, 0, 0⟩
          = ([DriverCall.esp_wifi_set_csi_rx_cb, DriverCall.esp_wifi_set_csi_config csi_config,
              DriverCall.esp_wifi_set_csi true], [LogLine.ESP_LOGI TAG "CSI enabled."]) := by
  have h1 := (wifi_enable_csi_stops_at_first_failure (fun _ => "ESP_FAIL") ⟨-1, 0, 0⟩).2.1
    (by decide)
  have h2 := (wifi_enable_csi_stops_at_first_failure (fun _ => "ESP_ERR_INVALID_ARG")
    ⟨0, 258, 0⟩).2.2.1 (by decide) (by decide)
  have h3 := (wifi_enable_csi_stops_at_first_failure (fun _ => "ESP_OK")
    ⟨0, 0, 0⟩).2.2.2.2.2.2.2.1 rfl rfl rfl
  exact ⟨h1.1, h1.2.1, h1.2.2.trans (by decide), h2.1, h3⟩

end StationCsi
